import Mathlib

/-!
# Verification of the experimentation (A/B testing) core

Shallow embedding of the allocation and lifecycle core of the
`experimentation` repository: the entity model (`src/database/models.py`),
the persistence gateway (`src/database/crud.py`), the repository layer
(`src/database/repository.py`), the experiment/variant services
(`src/services.py`), the read/aggregation interface (`src/interface.py`),
and the allocation-drift projections of the legacy model (`src/app.py`).

Modelling conventions:
* UUIDs are `Nat`; timestamps (`datetime.now()`) are `Nat` values passed in
  as an explicit `now` argument; `float` allocation weights are `ℚ`.
* A Mongo collection is a list of documents; `find_one` is first-match
  lookup, `update_one` replaces the first match and reports
  `modified_count` (1 only when the document actually changed).
* Python exceptions are the `Except` error component; every stateful
  operation returns `Store × Except Err β` so that the store state at the
  moment an exception propagates stays observable (the database keeps all
  writes performed before the exception).
* The single uniform random draw of `random.choices` is an explicit
  argument `r : ℚ`; the cumulative-weight bisection of `random.choices`
  is the structurally equivalent walk `choose` below.
-/

/-- Lifecycle states of an experiment (`ExperimentStatus` in
`src/database/models.py`). -/
inductive ExperimentStatus where
  | created
  | running
  | paused
  | stopped
  | completed
deriving DecidableEq, Repr

/-- The `Experiment` document model (`src/database/models.py`). -/
structure Experiment where
  name : String
  description : String
  experiment_uuid : Nat
  start_date : Option Nat
  end_date : Option Nat
  experiment_variants : List Nat
  experiment_status : ExperimentStatus
deriving DecidableEq, Repr

/-- The `ExperimentVariant` document model (`src/database/models.py`). -/
structure ExperimentVariant where
  name : String
  description : String
  variant_uuid : Nat
  allocation : ℚ
  participants : List Nat
deriving DecidableEq, Repr

/-- The store state relevant to the claims: the `experiments` and
`experiment_variants` collections. -/
structure Store where
  experiments : List Experiment
  variants : List ExperimentVariant
deriving DecidableEq, Repr

/-- Python exceptions raised by the core, one constructor per distinct
`raise` site / failure mode. -/
inductive Err where
  | experimentNotFound
  | experimentEnded
  | noVariants
  | participantAlreadyInExperiment
  | noAllocation
  | variantNotFound
  | invalidDraw
  | negativeAllocation
  | updateReturnedNone
  | storageAckFailure
deriving DecidableEq, Repr

deriving instance DecidableEq for Except

/-- `find_one` on the experiments collection: first document whose
`experiment_uuid` matches. -/
def findExperiment : List Experiment → Nat → Option Experiment
  | [], _ => none
  | e :: rest, eid => if e.experiment_uuid = eid then some e else findExperiment rest eid

/-- `find_one` on the experiment-variants collection: first document whose
`variant_uuid` matches. -/
def findVariant : List ExperimentVariant → Nat → Option ExperimentVariant
  | [], _ => none
  | v :: rest, vid => if v.variant_uuid = vid then some v else findVariant rest vid

/-- `update_one` with `$addToSet: {experiment_variants: vid}` on the first
experiment matching `eid`; returns the new collection and the
`modified_count`. -/
def pushIntoExperiments : List Experiment → Nat → Nat → List Experiment × Nat
  | [], _, _ => ([], 0)
  | e :: rest, eid, vid =>
    if e.experiment_uuid = eid then
      if vid ∈ e.experiment_variants then (e :: rest, 0)
      else ({ e with experiment_variants := e.experiment_variants ++ [vid] } :: rest, 1)
    else
      let res := pushIntoExperiments rest eid vid
      (e :: res.1, res.2)

/-- `update_one` with `$addToSet: {participants: pid}` on the first variant
matching `vid`; returns the new collection and the `modified_count`. -/
def pushIntoVariants : List ExperimentVariant → Nat → Nat → List ExperimentVariant × Nat
  | [], _, _ => ([], 0)
  | v :: rest, vid, pid =>
    if v.variant_uuid = vid then
      if pid ∈ v.participants then (v :: rest, 0)
      else ({ v with participants := v.participants ++ [pid] } :: rest, 1)
    else
      let res := pushIntoVariants rest vid pid
      (v :: res.1, res.2)

/-- `ExperimentRepository.push_variant` (`src/database/repository.py`):
atomic add-to-set of a variant id on an experiment; `true` iff
`modified_count == 1`. -/
def push_variant (db : Store) (eid vid : Nat) : Store × Bool :=
  let res := pushIntoExperiments db.experiments eid vid
  ({ db with experiments := res.1 }, if res.2 = 1 then true else false)

/-- `ExperimentVariantRepository.push_participant`
(`src/database/repository.py`): atomic add-to-set of a participant id on a
variant; `true` iff `modified_count == 1`. -/
def push_participant (db : Store) (vid pid : Nat) : Store × Bool :=
  let res := pushIntoVariants db.variants vid pid
  ({ db with variants := res.1 }, if res.2 = 1 then true else false)

lemma pushIntoExperiments_notFound (l : List Experiment) (eid vid : Nat)
    (h : findExperiment l eid = none) : pushIntoExperiments l eid vid = (l, 0) := by
  induction l with
  | nil => rfl
  | cons e rest ih =>
    simp only [findExperiment] at h
    simp only [pushIntoExperiments]
    split at h
    · exact absurd h (by simp)
    · next hne =>
      simp only [if_neg hne]
      simp [ih h]

lemma pushIntoExperiments_member (l : List Experiment) (eid vid : Nat) (e : Experiment)
    (h : findExperiment l eid = some e) (hmem : vid ∈ e.experiment_variants) :
    pushIntoExperiments l eid vid = (l, 0) := by
  induction l with
  | nil => simp [findExperiment] at h
  | cons e0 rest ih =>
    simp only [findExperiment] at h
    simp only [pushIntoExperiments]
    split at h
    · next heq =>
      cases h
      simp [heq, hmem]
    · next hne =>
      simp only [if_neg hne]
      simp [ih h]

lemma pushIntoVariants_notFound (l : List ExperimentVariant) (vid pid : Nat)
    (h : findVariant l vid = none) : pushIntoVariants l vid pid = (l, 0) := by
  induction l with
  | nil => rfl
  | cons v rest ih =>
    simp only [findVariant] at h
    simp only [pushIntoVariants]
    split at h
    · exact absurd h (by simp)
    · next hne =>
      simp only [if_neg hne]
      simp [ih h]

lemma pushIntoVariants_member (l : List ExperimentVariant) (vid pid : Nat)
    (v : ExperimentVariant) (h : findVariant l vid = some v) (hmem : pid ∈ v.participants) :
    pushIntoVariants l vid pid = (l, 0) := by
  induction l with
  | nil => simp [findVariant] at h
  | cons v0 rest ih =>
    simp only [findVariant] at h
    simp only [pushIntoVariants]
    split at h
    · next heq =>
      cases h
      simp [heq, hmem]
    · next hne =>
      simp only [if_neg hne]
      simp [ih h]

/-- C10: the atomic membership pushes return `false` both when the target
entity is missing from the store (store unchanged) and when the value is
already a member of the target's set, so a `false` return does not
distinguish the two situations. -/
theorem c10_push_false_on_missing_target (db : Store) (eid vid pid : Nat) :
    (findExperiment db.experiments eid = none → push_variant db eid vid = (db, false)) ∧
    (∀ e, findExperiment db.experiments eid = some e → vid ∈ e.experiment_variants →
      push_variant db eid vid = (db, false)) ∧
    (findVariant db.variants vid = none → push_participant db vid pid = (db, false)) ∧
    (∀ v, findVariant db.variants vid = some v → pid ∈ v.participants →
      push_participant db vid pid = (db, false)) := by
  refine ⟨?_, ?_, ?_, ?_⟩
  · intro h
    simp [push_variant, pushIntoExperiments_notFound db.experiments eid vid h]
  · intro e he hmem
    simp [push_variant, pushIntoExperiments_member db.experiments eid vid e he hmem]
  · intro h
    simp [push_participant, pushIntoVariants_notFound db.variants vid pid h]
  · intro v hv hmem
    simp [push_participant, pushIntoVariants_member db.variants vid pid v hv hmem]

/-- Experiment document of the C10 witness store. -/
def expC10 : Experiment :=
  { name := "exp", description := "d", experiment_uuid := 1,
    start_date := none, end_date := none, experiment_variants := [10],
    experiment_status := .created }

/-- Variant document of the C10 witness store. -/
def varC10 : ExperimentVariant :=
  { name := "v", description := "d", variant_uuid := 10,
    allocation := 1, participants := [7] }

/-- Concrete store used to witness C10. -/
def dbC10 : Store :=
  { experiments := [expC10], variants := [varC10] }

/-- C10 witness: on `dbC10`, pushing to absent experiment 2 / absent variant 11
returns `false` with the store unchanged, and so do the already-member pushes. -/
theorem c10_push_false_on_missing_target_witness :
    push_variant dbC10 2 10 = (dbC10, false) ∧
    push_variant dbC10 1 10 = (dbC10, false) ∧
    push_participant dbC10 11 7 = (dbC10, false) ∧
    push_participant dbC10 10 7 = (dbC10, false) := by
  obtain ⟨h1, -, -, -⟩ := c10_push_false_on_missing_target dbC10 2 10 7
  obtain ⟨-, h2', -, h4'⟩ := c10_push_false_on_missing_target dbC10 1 10 7
  obtain ⟨-, -, h3', -⟩ := c10_push_false_on_missing_target dbC10 1 11 7
  refine ⟨h1 (by decide), ?_, ?_, ?_⟩
  · exact h2' expC10 (by decide) (by decide)
  · exact h3' (by decide)
  · exact h4' varC10 (by decide) (by decide)

/-- `ExperimentVariantService.get_variant` (`src/services.py`): read a
variant by UUID. -/
def get_variant (db : Store) (vid : Nat) : Option ExperimentVariant :=
  findVariant db.variants vid

/-- `ExperimentVariantService.participant_in_variant` (`src/services.py`):
`false` when the variant is missing, else membership of the participant in
the variant's participant set. -/
def participant_in_variant (db : Store) (vid pid : Nat) : Bool :=
  match findVariant db.variants vid with
  | none => false
  | some v => decide (pid ∈ v.participants)

/-- `ExperimentService.get_variant_uuid_for_participant`
(`src/services.py`): first variant of the experiment containing the
participant, `none` when the experiment is missing or no variant contains
the participant. -/
def get_variant_uuid_for_participant (db : Store) (eid pid : Nat) : Option Nat :=
  match findExperiment db.experiments eid with
  | none => none
  | some e => e.experiment_variants.find? (fun vid => participant_in_variant db vid pid)

/-- `ExperimentService.participant_in_experiment` (`src/services.py`). -/
def participant_in_experiment (db : Store) (eid pid : Nat) : Bool :=
  (get_variant_uuid_for_participant db eid pid).isSome

/-- Membership of a status in `[RUNNING, PAUSED, COMPLETED]`, the list used
by `ExperimentService.experiment_in_progress`. -/
def in_progress_status (s : ExperimentStatus) : Bool :=
  decide (s = .running ∨ s = .paused ∨ s = .completed)

/-- `ExperimentService.experiment_in_progress` (`src/services.py`): raises
on a missing experiment, else status membership in
`[RUNNING, PAUSED, COMPLETED]`. -/
def experiment_in_progress (db : Store) (eid : Nat) : Except Err Bool :=
  match findExperiment db.experiments eid with
  | none => .error .experimentNotFound
  | some e => .ok (in_progress_status e.experiment_status)

/-- Hydration of a list of variant UUIDs to variant documents (the list
comprehension `[get_variant(vid) for vid in experiment.experiment_variants]`
in `add_participant_to_experiment`, followed by the attribute accesses that
crash on a `None` entry): `none` when some referenced variant is missing. -/
def hydrate_variants (db : Store) : List Nat → Option (List ExperimentVariant)
  | [] => some []
  | vid :: rest =>
    match get_variant db vid, hydrate_variants db rest with
    | some v, some vs => some (v :: vs)
    | _, _ => none

/-- The single weighted draw of `random.choices(variants, weights)[0]`:
`random.choices` draws one uniform sample `r` in `[0, total)` and picks by
bisection on cumulative weights, i.e. the first variant whose cumulative
weight exceeds `r`; this walk is the structurally equivalent form. Returns
`none` when `r` falls outside `[0, total)` (the library's `IndexError`
region, unreachable for a genuine uniform sample). -/
def choose : List ExperimentVariant → List ℚ → ℚ → Option ExperimentVariant
  | v :: vs, w :: ws, r => if r < w then some v else choose vs ws (r - w)
  | _, _, _ => none

/-- `ExperimentVariantService.add_participant_to_variant`
(`src/services.py`): raises when the variant is missing, else performs the
atomic push and returns its boolean. -/
def add_participant_to_variant (db : Store) (vid pid : Nat) : Store × Except Err Bool :=
  match findVariant db.variants vid with
  | none => (db, .error .variantNotFound)
  | some _ =>
    let res := push_participant db vid pid
    (res.1, .ok res.2)

/-- `ExperimentService.add_participant_to_experiment` (`src/services.py`,
lines 88-127). Check order as in the source: missing experiment, ended
status, zero variants, participant already admitted, hydration of the
variant documents, zero total allocation, weighted draw, atomic push. -/
def add_participant_to_experiment (db : Store) (eid pid : Nat) (r : ℚ) :
    Store × Except Err Nat :=
  match findExperiment db.experiments eid with
  | none => (db, .error .experimentNotFound)
  | some e =>
    if e.experiment_status = .stopped ∨ e.experiment_status = .completed then
      (db, .error .experimentEnded)
    else if e.experiment_variants.length = 0 then
      (db, .error .noVariants)
    else if participant_in_experiment db eid pid then
      (db, .error .participantAlreadyInExperiment)
    else
      match hydrate_variants db e.experiment_variants with
      | none => (db, .error .variantNotFound)
      | some variants =>
        let variant_allocations := variants.map (·.allocation)
        if variant_allocations.sum = 0 then
          (db, .error .noAllocation)
        else
          match choose variants variant_allocations r with
          | none => (db, .error .invalidDraw)
          | some selected =>
            match add_participant_to_variant db selected.variant_uuid pid with
            | (db2, .error err) => (db2, .error err)
            | (db2, .ok _) => (db2, .ok selected.variant_uuid)

/-- C2 counterexample: a STOPPED experiment with zero variants. The claim
says the admission error is `NoVariants`; the code raises
`ExperimentEnded` because the status check precedes the variant-count
check (`src/services.py` lines 100-107). -/
def expC2 : Experiment :=
  { name := "stopped-empty", description := "d", experiment_uuid := 1,
    start_date := none, end_date := none, experiment_variants := [],
    experiment_status := .stopped }

/-- The C2 counterexample store: just the stopped, variant-less experiment. -/
def dbC2 : Store := { experiments := [expC2], variants := [] }

/-- C2 counterexample: on a STOPPED experiment with zero variants the
admission operation returns the `ExperimentEnded` error, not the
`NoVariants` error the claim requires. -/
theorem c2_stopped_empty_raises_ended_cx :
    expC2.experiment_status = .stopped ∧
    expC2.experiment_variants.length = 0 ∧
    add_participant_to_experiment dbC2 1 7 0 = (dbC2, .error .experimentEnded) ∧
    Err.experimentEnded ≠ Err.noVariants := by
  refine ⟨rfl, rfl, ?_, by decide⟩
  decide

/-- C2 amended: the admission operation checks, in source order: missing
experiment (`NotFound`), ended status (`ExperimentEnded`), zero variants
(`NoVariants`), participant already admitted
(`ParticipantAlreadyInExperiment`), and finally zero total allocation
(`NoAllocation`); each failure leaves the store unchanged. In particular a
STOPPED experiment with zero variants raises `ExperimentEnded`. -/
theorem c2_admission_error_order (db : Store) (eid pid : Nat) (r : ℚ) :
    (findExperiment db.experiments eid = none →
      add_participant_to_experiment db eid pid r = (db, .error .experimentNotFound)) ∧
    (∀ e, findExperiment db.experiments eid = some e →
      ((e.experiment_status = .stopped ∨ e.experiment_status = .completed) →
        add_participant_to_experiment db eid pid r = (db, .error .experimentEnded)) ∧
      (¬(e.experiment_status = .stopped ∨ e.experiment_status = .completed) →
        e.experiment_variants.length = 0 →
        add_participant_to_experiment db eid pid r = (db, .error .noVariants)) ∧
      (¬(e.experiment_status = .stopped ∨ e.experiment_status = .completed) →
        e.experiment_variants.length ≠ 0 →
        participant_in_experiment db eid pid = true →
        add_participant_to_experiment db eid pid r =
          (db, .error .participantAlreadyInExperiment)) ∧
      (∀ vs, ¬(e.experiment_status = .stopped ∨ e.experiment_status = .completed) →
        e.experiment_variants.length ≠ 0 →
        participant_in_experiment db eid pid = false →
        hydrate_variants db e.experiment_variants = some vs →
        (vs.map (·.allocation)).sum = 0 →
        add_participant_to_experiment db eid pid r = (db, .error .noAllocation))) := by
  constructor
  · intro h
    simp [add_participant_to_experiment, h]
  · intro e he
    refine ⟨?_, ?_, ?_, ?_⟩
    · intro hst
      simp [add_participant_to_experiment, he, hst]
    · intro hst hlen
      simp [add_participant_to_experiment, he, hst, hlen]
    · intro hst hlen hin
      simp [add_participant_to_experiment, he, hst, hlen, hin]
    · intro vs hst hlen hin hhyd hsum
      simp [add_participant_to_experiment, he, hst, hlen, hin, hhyd, hsum]

/-- Zero-weight variant for the C2 witness store. -/
def varC2w : ExperimentVariant :=
  { name := "v", description := "d", variant_uuid := 10,
    allocation := 0, participants := [] }

/-- Running experiment with a single zero-weight variant (C2 witness). -/
def expC2w : Experiment :=
  { name := "running", description := "d", experiment_uuid := 1,
    start_date := some 0, end_date := none, experiment_variants := [10],
    experiment_status := .running }

/-- The C2 witness store. -/
def dbC2w : Store := { experiments := [expC2w], variants := [varC2w] }

/-- C2 witness: concrete instances of the amended error order: a missing
experiment id raises `NotFound`, and a running experiment whose only
variant has weight zero raises `NoAllocation` for a fresh participant. -/
theorem c2_admission_error_order_witness :
    add_participant_to_experiment dbC2w 2 7 0 = (dbC2w, .error .experimentNotFound) ∧
    add_participant_to_experiment dbC2w 1 7 0 = (dbC2w, .error .noAllocation) := by
  constructor
  · exact (c2_admission_error_order dbC2w 2 7 0).1 (by decide)
  · exact (((c2_admission_error_order dbC2w 1 7 0).2 expC2w (by decide)).2.2.2) [varC2w]
      (by decide) (by decide) (by decide) (by decide) (by simp [varC2w])

/-- Membership count of a variant: size of its participant set (0 when the
variant is missing). -/
def membership_count (db : Store) (vid : Nat) : Nat :=
  match findVariant db.variants vid with
  | none => 0
  | some v => v.participants.length

lemma findVariant_some_uuid (l : List ExperimentVariant) (vid : Nat) (v : ExperimentVariant)
    (h : findVariant l vid = some v) : v.variant_uuid = vid := by
  induction l with
  | nil => simp [findVariant] at h
  | cons v0 rest ih =>
    simp only [findVariant] at h
    split at h
    · next h0 => cases h; exact h0
    · exact ih h

lemma hydrate_variants_mem (db : Store) (l : List Nat) (vs : List ExperimentVariant)
    (h : hydrate_variants db l = some vs) :
    ∀ v ∈ vs, v.variant_uuid ∈ l ∧ findVariant db.variants v.variant_uuid = some v := by
  induction l generalizing vs with
  | nil =>
    simp only [hydrate_variants] at h
    cases h
    intro v hv
    simp at hv
  | cons vid rest ih =>
    simp only [hydrate_variants] at h
    cases hv : get_variant db vid with
    | none => rw [hv] at h; exact absurd h (by simp)
    | some v0 =>
      cases hr : hydrate_variants db rest with
      | none => rw [hv, hr] at h; exact absurd h (by simp)
      | some vs' =>
        rw [hv, hr] at h
        cases h
        intro v hvmem
        rcases List.mem_cons.mp hvmem with rfl | hmem
        · have huuid : v.variant_uuid = vid :=
            findVariant_some_uuid db.variants vid v hv
        
          exact ⟨by rw [huuid]; exact List.mem_cons_self _ _, by rw [huuid]; exact hv⟩
        · obtain ⟨h1, h2⟩ := ih vs' hr v hmem
          exact ⟨List.mem_cons_of_mem _ h1, h2⟩

lemma choose_mem (vs : List ExperimentVariant) (ws : List ℚ) (r : ℚ)
    (v : ExperimentVariant) (h : choose vs ws r = some v) : v ∈ vs := by
  induction vs generalizing ws r with
  | nil => simp [choose] at h
  | cons v0 rest ih =>
    cases ws with
    | nil => simp [choose] at h
    | cons w ws' =>
      simp only [choose] at h
      split at h
      · cases h; exact List.mem_cons_self _ _
      · exact List.mem_cons_of_mem _ (ih ws' (r - w) h)

lemma pushIntoVariants_fresh (l : List ExperimentVariant) (vid pid : Nat)
    (v : ExperimentVariant) (h : findVariant l vid = some v) (hnot : pid ∉ v.participants) :
    (pushIntoVariants l vid pid).2 = 1 ∧
    findVariant (pushIntoVariants l vid pid).1 vid =
      some { v with participants := v.participants ++ [pid] } ∧
    ∀ w, w ≠ vid → findVariant (pushIntoVariants l vid pid).1 w = findVariant l w := by
  induction l with
  | nil => simp [findVariant] at h
  | cons v0 rest ih =>
    simp only [findVariant] at h
    by_cases h0 : v0.variant_uuid = vid
    · rw [if_pos h0] at h
      cases h
      refine ⟨?_, ?_, ?_⟩
      · simp [pushIntoVariants, h0, hnot]
      · simp only [pushIntoVariants, if_pos h0]
        rw [if_neg hnot]
        simp [findVariant, h0]
      · intro w hw
        simp only [pushIntoVariants, if_pos h0]
        rw [if_neg hnot]
        simp only [findVariant]
        rw [if_neg (by rw [h0]; exact fun hc => hw hc.symm),
          if_neg (by rw [h0]; exact fun hc => hw hc.symm)]
    · rw [if_neg h0] at h
      obtain ⟨ih1, ih2, ih3⟩ := ih h
      refine ⟨?_, ?_, ?_⟩
      · simpa [pushIntoVariants, h0] using ih1
      · simp only [pushIntoVariants, if_neg h0, findVariant]
        exact ih2
      · intro w hw
        by_cases h0w : v0.variant_uuid = w
        · simp [pushIntoVariants, h0, findVariant, h0w, hw]
        · simp only [pushIntoVariants, if_neg h0, findVariant]
          rw [if_neg h0w, if_neg h0w]
          exact ih3 w hw

lemma participant_in_experiment_false_forall (db : Store) (eid pid : Nat) (e : Experiment)
    (he : findExperiment db.experiments eid = some e)
    (h : participant_in_experiment db eid pid = false) :
    ∀ vid ∈ e.experiment_variants, participant_in_variant db vid pid = false := by
  intro vid hvid
  cases hfind : e.experiment_variants.find? (fun w => participant_in_variant db w pid) with
  | some x =>
    exfalso
    simp [participant_in_experiment, get_variant_uuid_for_participant, he, hfind] at h
  | none =>
    have hall := List.find?_eq_none.mp hfind vid hvid
    simpa using hall

lemma participant_in_experiment_true_of (db : Store) (eid pid : Nat) (e : Experiment)
    (he : findExperiment db.experiments eid = some e) (vid : Nat)
    (hvid : vid ∈ e.experiment_variants)
    (hin : participant_in_variant db vid pid = true) :
    participant_in_experiment db eid pid = true := by
  simp only [participant_in_experiment, get_variant_uuid_for_participant, he]
  rw [List.find?_isSome]
  exact ⟨vid, hvid, by simpa using hin⟩

lemma add_error_already_member (db : Store) (eid pid : Nat) (r : ℚ) (e : Experiment)
    (he : findExperiment db.experiments eid = some e)
    (hst : ¬(e.experiment_status = .stopped ∨ e.experiment_status = .completed))
    (hnv : e.experiment_variants.length ≠ 0)
    (hin : participant_in_experiment db eid pid = true) :
    add_participant_to_experiment db eid pid r =
      (db, .error .participantAlreadyInExperiment) := by
  simp [add_participant_to_experiment, he, hst, hnv, hin]

/-- Inversion of a successful admission: all the guards passed, a selected
variant exists, and the result store is the atomic push of the participant
into the selected variant. -/
lemma add_participant_ok_inv (db db2 : Store) (eid pid vid : Nat) (r : ℚ)
    (h : add_participant_to_experiment db eid pid r = (db2, .ok vid)) :
    ∃ e vs sel, findExperiment db.experiments eid = some e ∧
      ¬(e.experiment_status = .stopped ∨ e.experiment_status = .completed) ∧
      e.experiment_variants.length ≠ 0 ∧
      participant_in_experiment db eid pid = false ∧
      hydrate_variants db e.experiment_variants = some vs ∧
      choose vs (vs.map (·.allocation)) r = some sel ∧
      sel.variant_uuid = vid ∧
      findVariant db.variants vid = some sel ∧
      vid ∈ e.experiment_variants ∧
      db2 = { db with variants := (pushIntoVariants db.variants vid pid).1 } := by
  unfold add_participant_to_experiment at h
  split at h
  · exact absurd h (by simp)
  · next e he =>
    split at h
    · exact absurd h (by simp)
    · next hst =>
      split at h
      · exact absurd h (by simp)
      · next hnv =>
        split at h
        · exact absurd h (by simp)
        · next hin =>
          split at h
          · exact absurd h (by simp)
          · next vs hhyd =>
            dsimp only [] at h
            split at h
            · exact absurd h (by simp)
            · next hsum =>
              split at h
              · exact absurd h (by simp)
              · next sel hsel =>
                have hmemvs : sel ∈ vs :=
                  choose_mem vs (vs.map (·.allocation)) r sel hsel
                obtain ⟨hmem, hfind⟩ :=
                  hydrate_variants_mem db e.experiment_variants vs hhyd sel hmemvs
                split at h
                · next herr =>
                  exact absurd h (by simp)
                · next db2x okb hok =>
                  unfold add_participant_to_variant at hok
                  rw [hfind] at hok
                  dsimp only [] at hok
                  rw [Prod.mk.injEq] at hok h
                  obtain ⟨hdb2x, -⟩ := hok
                  obtain ⟨hdb2, hvid⟩ := h
                  have hvid' : sel.variant_uuid = vid := by
                    simpa using hvid
                  refine ⟨e, vs, sel, he, hst, hnv, ?_, hhyd, hsel, hvid', ?_, ?_, ?_⟩
                  · simpa using hin
                  · rw [← hvid']; exact hfind
                  · rw [← hvid']; exact hmem
                  · rw [← hdb2, ← hdb2x, hvid']
                    rfl

/-- Experiment of the C1 counterexample store: running, one variant. -/
def expC1 : Experiment :=
  { name := "running", description := "d", experiment_uuid := 1,
    start_date := some 0, end_date := none, experiment_variants := [10],
    experiment_status := .running }

/-- Variant of the C1 counterexample store: participant 7 is already a
member. -/
def varC1 : ExperimentVariant :=
  { name := "v", description := "d", variant_uuid := 10,
    allocation := 1, participants := [7] }

/-- The C1 counterexample store. -/
def dbC1 : Store := { experiments := [expC1], variants := [varC1] }

/-- C1 counterexample: participant 7 is already a member of variant 10 of
experiment 1, yet `add_participant_to_experiment` raises
`ParticipantAlreadyInExperiment` (`src/services.py` lines 109-112) instead
of returning that variant's identity as the claim requires. -/
theorem c1_readmission_not_idempotent_cx :
    get_variant_uuid_for_participant dbC1 1 7 = some 10 ∧
    add_participant_to_experiment dbC1 1 7 0 =
      (dbC1, .error .participantAlreadyInExperiment) ∧
    (dbC1, (Except.error Err.participantAlreadyInExperiment : Except Err Nat)) ≠
      (dbC1, .ok 10) := by
  refine ⟨by decide, by decide, by decide⟩

/-- C1 amended: re-admission is NOT an idempotent return; admitting a
participant who is already a member of some variant of a live experiment
raises `ParticipantAlreadyInExperiment` and leaves the store unchanged.
Consequently a first successful admission followed by a second admission
attempt of the same participant grows the assigned variant's membership
count by exactly one (the second call changes nothing). -/
theorem c1_readmission_raises (db : Store) (eid pid : Nat) (r r2 : ℚ) (e : Experiment)
    (he : findExperiment db.experiments eid = some e)
    (hst : ¬(e.experiment_status = .stopped ∨ e.experiment_status = .completed))
    (hnv : e.experiment_variants.length ≠ 0) :
    (participant_in_experiment db eid pid = true →
      add_participant_to_experiment db eid pid r =
        (db, .error .participantAlreadyInExperiment)) ∧
    (∀ db2 vid, add_participant_to_experiment db eid pid r = (db2, .ok vid) →
      membership_count db2 vid = membership_count db vid + 1 ∧
      db2.experiments = db.experiments ∧
      add_participant_to_experiment db2 eid pid r2 =
        (db2, .error .participantAlreadyInExperiment)) := by
  constructor
  · intro hin
    exact add_error_already_member db eid pid r e he hst hnv hin
  · intro db2 vid hadd
    obtain ⟨e', vs, sel, he', hst', hnv', hpie, hhyd, hsel, hveq, hfind, hmem, hdb2⟩ :=
      add_participant_ok_inv db db2 eid pid vid r hadd
    have hee : e' = e := by
      rw [he] at he'
      exact ((Option.some.injEq _ _).mp he').symm
    rw [hee] at hmem
    have hpiv := participant_in_experiment_false_forall db eid pid e he hpie vid hmem
    have hnotin : pid ∉ sel.participants := by
      simp only [participant_in_variant, hfind] at hpiv
      simpa using hpiv
    obtain ⟨hm1, hfind2, hother⟩ := pushIntoVariants_fresh db.variants vid pid sel hfind hnotin
    have hcount : membership_count db2 vid = membership_count db vid + 1 := by
      rw [hdb2]
      simp only [membership_count]
      rw [hfind2, hfind]
      simp
    have hexps : db2.experiments = db.experiments := by
      rw [hdb2]
    have he2 : findExperiment db2.experiments eid = some e := by
      rw [hexps]
      exact he
    have hin2 : participant_in_experiment db2 eid pid = true := by
      apply participant_in_experiment_true_of db2 eid pid e he2 vid hmem
      simp only [participant_in_variant]
      have hv2 : findVariant db2.variants vid =
          some { sel with participants := sel.participants ++ [pid] } := by
        rw [hdb2]
        exact hfind2
      rw [hv2]
      simp
    exact ⟨hcount, hexps,
      add_error_already_member db2 eid pid r2 e he2 hst hnv hin2⟩

/-- Experiment of the C1 witness store: running, two variants. -/
def expC1w : Experiment :=
  { name := "running", description := "d", experiment_uuid := 1,
    start_date := some 0, end_date := none, experiment_variants := [10, 11],
    experiment_status := .running }

/-- First variant of the C1 witness store (weight 1, empty). -/
def varC1w10 : ExperimentVariant :=
  { name := "a", description := "d", variant_uuid := 10,
    allocation := 1, participants := [] }

/-- Second variant of the C1 witness store (weight 1, empty). -/
def varC1w11 : ExperimentVariant :=
  { name := "b", description := "d", variant_uuid := 11,
    allocation := 1, participants := [] }

/-- The C1 witness store before admission. -/
def dbC1w : Store := { experiments := [expC1w], variants := [varC1w10, varC1w11] }

/-- The C1 witness store after participant 7 is admitted into variant 10. -/
def dbC1w2 : Store :=
  { experiments := [expC1w],
    variants := [{ varC1w10 with participants := [7] }, varC1w11] }

/-- C1 witness: the first admission of participant 7 (draw 0, selecting
variant 10) succeeds, the membership count grows by one, and the second
admission attempt raises `ParticipantAlreadyInExperiment`. -/
theorem c1_readmission_raises_witness :
    membership_count dbC1w2 10 = membership_count dbC1w 10 + 1 ∧
    dbC1w2.experiments = dbC1w.experiments ∧
    add_participant_to_experiment dbC1w2 1 7 0 =
      (dbC1w2, .error .participantAlreadyInExperiment) := by
  have hadd : add_participant_to_experiment dbC1w 1 7 0 = (dbC1w2, Except.ok 10) := by
    norm_num [add_participant_to_experiment, dbC1w, dbC1w2, expC1w, varC1w10, varC1w11,
      findExperiment, participant_in_experiment, get_variant_uuid_for_participant,
      participant_in_variant, findVariant, hydrate_variants, get_variant, choose,
      add_participant_to_variant, push_participant, pushIntoVariants, List.find?]
    decide
  exact (c1_readmission_raises dbC1w 1 7 0 0 expC1w (by decide) (by decide)
    (by decide)).2 dbC1w2 10 hadd

lemma findExperiment_some_uuid (l : List Experiment) (eid : Nat) (e : Experiment)
    (h : findExperiment l eid = some e) : e.experiment_uuid = eid := by
  induction l with
  | nil => simp [findExperiment] at h
  | cons e0 rest ih =>
    simp only [findExperiment] at h
    split at h
    · next h0 => cases h; exact h0
    · exact ih h

/-- `update_one` with `$set` of the whole patched document on the first
experiment matching `eid` (`GenericCrud.update`): returns the new
collection and the `modified_count` (1 only when the stored document
actually changed). -/
def replaceFirstExperiment : List Experiment → Nat → Experiment → List Experiment × Nat
  | [], _, _ => ([], 0)
  | e :: rest, eid, e2 =>
    if e.experiment_uuid = eid then
      if e2 = e then (e :: rest, 0) else (e2 :: rest, 1)
    else
      let res := replaceFirstExperiment rest eid e2
      (e :: res.1, res.2)

/-- `update_one` with `$set` of the whole patched document on the first
variant matching `vid` (`GenericCrud.update`). -/
def replaceFirstVariant : List ExperimentVariant → Nat → ExperimentVariant →
    List ExperimentVariant × Nat
  | [], _, _ => ([], 0)
  | v :: rest, vid, v2 =>
    if v.variant_uuid = vid then
      if v2 = v then (v :: rest, 0) else (v2 :: rest, 1)
    else
      let res := replaceFirstVariant rest vid v2
      (v :: res.1, res.2)

/-- `BaseRepository.update` specialised to the experiments collection
(`src/database/repository.py`): read the current document (a missing
target makes the in-memory patching crash, modelled as the NotFound error),
patch the fields in memory, `$set` the whole document, and on
`modified_count = 1` re-read and return the updated document; any other
count makes `GenericCrud.update` return false and the repository return
`None`. -/
def repo_update_experiment (db : Store) (eid : Nat) (patch : Experiment → Experiment) :
    Store × Except Err (Option Experiment) :=
  match findExperiment db.experiments eid with
  | none => (db, .error .experimentNotFound)
  | some cur =>
    let res := replaceFirstExperiment db.experiments eid (patch cur)
    if res.2 = 1 then ({ db with experiments := res.1 }, .ok (findExperiment res.1 eid))
    else ({ db with experiments := res.1 }, .ok none)

/-- `BaseRepository.update` specialised to the variants collection. -/
def repo_update_variant (db : Store) (vid : Nat) (patch : ExperimentVariant → ExperimentVariant) :
    Store × Except Err (Option ExperimentVariant) :=
  match findVariant db.variants vid with
  | none => (db, .error .variantNotFound)
  | some cur =>
    let res := replaceFirstVariant db.variants vid (patch cur)
    if res.2 = 1 then ({ db with variants := res.1 }, .ok (findVariant res.1 vid))
    else ({ db with variants := res.1 }, .ok none)

/-- `ExperimentService.start_experiment` (`src/services.py` lines 171-201). -/
def start_experiment (db : Store) (eid : Nat) (now : Nat) : Store × Except Err ExperimentStatus :=
  match findExperiment db.experiments eid with
  | none => (db, .error .experimentNotFound)
  | some e =>
    if e.experiment_status = .running then
      (db, .ok .running)
    else if e.experiment_status = .stopped ∨ e.experiment_status = .completed then
      (db, .ok e.experiment_status)
    else if e.experiment_status = .created then
      match repo_update_experiment db eid
        (fun c => { c with experiment_status := .running, start_date := some now }) with
      | (db2, .ok (some e2)) => (db2, .ok e2.experiment_status)
      | (db2, .ok none) => (db2, .error .updateReturnedNone)
      | (db2, .error err) => (db2, .error err)
    else
      match repo_update_experiment db eid
        (fun c => { c with experiment_status := .running }) with
      | (db2, .ok (some e2)) => (db2, .ok e2.experiment_status)
      | (db2, .ok none) => (db2, .error .updateReturnedNone)
      | (db2, .error err) => (db2, .error err)

/-- `ExperimentService.pause_experiment` (`src/services.py` lines 203-230). -/
def pause_experiment (db : Store) (eid : Nat) : Store × Except Err ExperimentStatus :=
  match findExperiment db.experiments eid with
  | none => (db, .error .experimentNotFound)
  | some e =>
    if e.experiment_status = .paused then
      (db, .ok .paused)
    else if e.experiment_status = .created then
      (db, .ok .created)
    else if e.experiment_status = .stopped ∨ e.experiment_status = .completed then
      (db, .ok e.experiment_status)
    else
      match repo_update_experiment db eid
        (fun c => { c with experiment_status := .paused }) with
      | (db2, .ok (some e2)) => (db2, .ok e2.experiment_status)
      | (db2, .ok none) => (db2, .error .updateReturnedNone)
      | (db2, .error err) => (db2, .error err)

/-- `ExperimentService.end_experiment` (`src/services.py` lines 232-254). -/
def end_experiment (db : Store) (eid : Nat) (end_state : ExperimentStatus) (now : Nat) :
    Store × Except Err ExperimentStatus :=
  match findExperiment db.experiments eid with
  | none => (db, .error .experimentNotFound)
  | some e =>
    if e.experiment_status = .stopped ∨ e.experiment_status = .completed then
      (db, .ok e.experiment_status)
    else
      match repo_update_experiment db eid
        (fun c => { c with experiment_status := end_state, end_date := some now }) with
      | (db2, .ok (some e2)) => (db2, .ok e2.experiment_status)
      | (db2, .ok none) => (db2, .error .updateReturnedNone)
      | (db2, .error err) => (db2, .error err)

/-- `ExperimentService.stop_experiment` (`src/services.py`). -/
def stop_experiment (db : Store) (eid : Nat) (now : Nat) : Store × Except Err ExperimentStatus :=
  end_experiment db eid .stopped now

/-- `ExperimentService.complete_experiment` (`src/services.py`). -/
def complete_experiment (db : Store) (eid : Nat) (now : Nat) : Store × Except Err ExperimentStatus :=
  end_experiment db eid .completed now

lemma replaceFirstExperiment_changed (l : List Experiment) (eid : Nat)
    (e e2 : Experiment) (h : findExperiment l eid = some e) (hne : e2 ≠ e)
    (hu : e2.experiment_uuid = eid) :
    (replaceFirstExperiment l eid e2).2 = 1 ∧
    findExperiment (replaceFirstExperiment l eid e2).1 eid = some e2 ∧
    ∀ w, w ≠ eid → findExperiment (replaceFirstExperiment l eid e2).1 w =
      findExperiment l w := by
  induction l with
  | nil => simp [findExperiment] at h
  | cons e0 rest ih =>
    simp only [findExperiment] at h
    by_cases h0 : e0.experiment_uuid = eid
    · rw [if_pos h0] at h
      cases h
      refine ⟨?_, ?_, ?_⟩
      · simp [replaceFirstExperiment, h0, hne]
      · simp only [replaceFirstExperiment, if_pos h0]
        rw [if_neg hne]
        simp [findExperiment, hu]
      · intro w hw
        simp only [replaceFirstExperiment, if_pos h0]
        rw [if_neg hne]
        simp only [findExperiment]
        rw [if_neg (by rw [hu]; exact fun hc => hw hc.symm),
          if_neg (by rw [h0]; exact fun hc => hw hc.symm)]
    · rw [if_neg h0] at h
      obtain ⟨ih1, ih2, ih3⟩ := ih h
      refine ⟨?_, ?_, ?_⟩
      · simpa [replaceFirstExperiment, h0] using ih1
      · simp only [replaceFirstExperiment, if_neg h0, findExperiment]
        exact ih2
      · intro w hw
        by_cases h0w : e0.experiment_uuid = w
        · simp [replaceFirstExperiment, h0, findExperiment, h0w, hw]
        · simp only [replaceFirstExperiment, if_neg h0, findExperiment]
          rw [if_neg h0w, if_neg h0w]
          exact ih3 w hw

lemma repo_update_experiment_changed (db : Store) (eid : Nat)
    (patch : Experiment → Experiment) (e : Experiment)
    (he : findExperiment db.experiments eid = some e)
    (hne : patch e ≠ e) (hu : (patch e).experiment_uuid = eid) :
    ∃ db2, repo_update_experiment db eid patch = (db2, .ok (some (patch e))) ∧
      findExperiment db2.experiments eid = some (patch e) ∧
      db2.variants = db.variants ∧
      ∀ w, w ≠ eid → findExperiment db2.experiments w = findExperiment db.experiments w := by
  obtain ⟨h2, hfind, hother⟩ :=
    replaceFirstExperiment_changed db.experiments eid e (patch e) he hne hu
  refine ⟨{ db with experiments := (replaceFirstExperiment db.experiments eid (patch e)).1 },
    ?_, hfind, rfl, hother⟩
  simp only [repo_update_experiment, he]
  rw [if_pos h2, hfind]

/-- C3: `start_experiment` moves CREATED to RUNNING setting the start
timestamp on that first transition only, PAUSED to RUNNING without
touching the start timestamp, is a no-op on RUNNING; `pause_experiment` on
CREATED is a no-op; both return the existing terminal status unchanged on
STOPPED/COMPLETED. -/
theorem c3_start_pause_transitions (db : Store) (eid now : Nat) (e : Experiment)
    (he : findExperiment db.experiments eid = some e) :
    (e.experiment_status = .created →
      (start_experiment db eid now).2 = .ok .running ∧
      findExperiment (start_experiment db eid now).1.experiments eid =
        some { e with experiment_status := .running, start_date := some now } ∧
      (start_experiment db eid now).1.variants = db.variants) ∧
    (e.experiment_status = .paused →
      (start_experiment db eid now).2 = .ok .running ∧
      findExperiment (start_experiment db eid now).1.experiments eid =
        some { e with experiment_status := .running } ∧
      (start_experiment db eid now).1.variants = db.variants) ∧
    (e.experiment_status = .running → start_experiment db eid now = (db, .ok .running)) ∧
    (e.experiment_status = .created → pause_experiment db eid = (db, .ok .created)) ∧
    ((e.experiment_status = .stopped ∨ e.experiment_status = .completed) →
      start_experiment db eid now = (db, .ok e.experiment_status) ∧
      pause_experiment db eid = (db, .ok e.experiment_status)) := by
  have huuid : e.experiment_uuid = eid := findExperiment_some_uuid db.experiments eid e he
  refine ⟨?_, ?_, ?_, ?_, ?_⟩
  · intro hc
    have hne : ({ e with experiment_status := ExperimentStatus.running, start_date := some now } : Experiment) ≠ e := by
      intro hcon
      have h1 := congrArg Experiment.experiment_status hcon
      dsimp only [] at h1
      rw [hc] at h1
      exact absurd h1 (by decide)
    obtain ⟨db2, hupd, hfind2, hvar, -⟩ := repo_update_experiment_changed db eid
      (fun c => { c with experiment_status := .running, start_date := some now }) e he hne huuid
    have hcall : start_experiment db eid now = (db2, .ok .running) := by
      simp only [start_experiment, he]
      rw [if_neg (by simp [hc]), if_neg (by simp [hc]), if_pos hc, hupd]
    exact ⟨by rw [hcall], by rw [hcall]; exact hfind2, by rw [hcall]; exact hvar⟩
  · intro hp
    have hne : ({ e with experiment_status := ExperimentStatus.running } : Experiment) ≠ e := by
      intro hcon
      have h1 := congrArg Experiment.experiment_status hcon
      dsimp only [] at h1
      rw [hp] at h1
      exact absurd h1 (by decide)
    obtain ⟨db2, hupd, hfind2, hvar, -⟩ := repo_update_experiment_changed db eid
      (fun c => { c with experiment_status := .running }) e he hne huuid
    have hcall : start_experiment db eid now = (db2, .ok .running) := by
      simp only [start_experiment, he]
      rw [if_neg (by simp [hp]), if_neg (by simp [hp]), if_neg (by simp [hp]), hupd]
    exact ⟨by rw [hcall], by rw [hcall]; exact hfind2, by rw [hcall]; exact hvar⟩
  · intro hr
    simp [start_experiment, he, hr]
  · intro hc
    simp only [pause_experiment, he]
    rw [if_neg (by simp [hc]), if_pos hc]
  · intro hst
    constructor
    · simp only [start_experiment, he]
      rw [if_neg (by rcases hst with h | h <;> simp [h]), if_pos hst]
    · simp only [pause_experiment, he]
      rw [if_neg (by rcases hst with h | h <;> simp [h]),
        if_neg (by rcases hst with h | h <;> simp [h]), if_pos hst]

/-- Experiment of the C3 witness store: freshly created. -/
def expC3w : Experiment :=
  { name := "fresh", description := "d", experiment_uuid := 1,
    start_date := none, end_date := none, experiment_variants := [],
    experiment_status := .created }

/-- The C3 witness store. -/
def dbC3w : Store := { experiments := [expC3w], variants := [] }

/-- C3 witness: starting the CREATED experiment at time 5 returns RUNNING
and stores the start timestamp, and pausing it instead is a no-op. -/
theorem c3_start_pause_transitions_witness :
    (start_experiment dbC3w 1 5).2 = .ok .running ∧
    findExperiment (start_experiment dbC3w 1 5).1.experiments 1 =
      some { expC3w with experiment_status := .running, start_date := some 5 } ∧
    (start_experiment dbC3w 1 5).1.variants = dbC3w.variants ∧
    pause_experiment dbC3w 1 = (dbC3w, .ok .created) := by
  obtain ⟨h1, -, -, h4, -⟩ := c3_start_pause_transitions dbC3w 1 5 expC3w (by decide)
  obtain ⟨ha, hb, hc⟩ := h1 rfl
  exact ⟨ha, hb, hc, h4 rfl⟩

/-- C4: terminal states are write-once: on a STOPPED/COMPLETED experiment
`start`, `pause` and `end` (for any target) return the existing terminal
status and leave the store untouched; on a non-terminal experiment `stop`
sets STOPPED with the end timestamp, and a following `complete` returns
STOPPED with the store (and the end timestamp) unchanged. -/
theorem c4_terminal_write_once (db : Store) (eid now now2 : Nat) (e : Experiment)
    (he : findExperiment db.experiments eid = some e) :
    ((e.experiment_status = .stopped ∨ e.experiment_status = .completed) →
      start_experiment db eid now = (db, .ok e.experiment_status) ∧
      pause_experiment db eid = (db, .ok e.experiment_status) ∧
      ∀ target, end_experiment db eid target now2 = (db, .ok e.experiment_status)) ∧
    (¬(e.experiment_status = .stopped ∨ e.experiment_status = .completed) →
      (stop_experiment db eid now).2 = .ok .stopped ∧
      findExperiment (stop_experiment db eid now).1.experiments eid =
        some { e with experiment_status := .stopped, end_date := some now } ∧
      (stop_experiment db eid now).1.variants = db.variants ∧
      complete_experiment (stop_experiment db eid now).1 eid now2 =
        ((stop_experiment db eid now).1, .ok .stopped)) := by
  have huuid : e.experiment_uuid = eid := findExperiment_some_uuid db.experiments eid e he
  constructor
  · intro hst
    refine ⟨?_, ?_, ?_⟩
    · simp only [start_experiment, he]
      rw [if_neg (by rcases hst with h | h <;> simp [h]), if_pos hst]
    · simp only [pause_experiment, he]
      rw [if_neg (by rcases hst with h | h <;> simp [h]),
        if_neg (by rcases hst with h | h <;> simp [h]), if_pos hst]
    · intro target
      simp only [end_experiment, he]
      rw [if_pos hst]
  · intro hst
    have hne : ({ e with experiment_status := ExperimentStatus.stopped, end_date := some now } : Experiment) ≠ e := by
      intro hcon
      have h1 := congrArg Experiment.experiment_status hcon
      dsimp only [] at h1
      exact hst (Or.inl h1.symm)
    obtain ⟨db2, hupd, hfind2, hvar, -⟩ := repo_update_experiment_changed db eid
      (fun c => { c with experiment_status := .stopped, end_date := some now }) e he hne huuid
    have hcall : stop_experiment db eid now = (db2, .ok .stopped) := by
      simp only [stop_experiment, end_experiment, he]
      rw [if_neg hst, hupd]
    refine ⟨by rw [hcall], by rw [hcall]; exact hfind2, by rw [hcall]; exact hvar, ?_⟩
    rw [hcall]
    simp only [complete_experiment, end_experiment, hfind2]
    rw [if_pos (by simp)]

/-- Experiment of the C4 witness store: running. -/
def expC4w : Experiment :=
  { name := "running", description := "d", experiment_uuid := 1,
    start_date := some 2, end_date := none, experiment_variants := [],
    experiment_status := .running }

/-- The C4 witness store. -/
def dbC4w : Store := { experiments := [expC4w], variants := [] }

/-- C4 witness: stopping the running experiment at time 9 stores STOPPED
with end timestamp 9, and a later `complete` at time 11 returns STOPPED
with the store unchanged (the end timestamp stays 9). -/
theorem c4_terminal_write_once_witness :
    (stop_experiment dbC4w 1 9).2 = .ok .stopped ∧
    findExperiment (stop_experiment dbC4w 1 9).1.experiments 1 =
      some { expC4w with experiment_status := .stopped, end_date := some 9 } ∧
    (stop_experiment dbC4w 1 9).1.variants = dbC4w.variants ∧
    complete_experiment (stop_experiment dbC4w 1 9).1 1 11 =
      ((stop_experiment dbC4w 1 9).1, .ok .stopped) := by
  exact (c4_terminal_write_once dbC4w 1 9 11 expC4w (by decide)).2 (by decide)

/-- `ExperimentInterface.get_variant_name` (`src/interface.py` lines
27-59): missing experiment raises; a not-in-progress experiment (CREATED
or STOPPED) yields the sentinel; a participant with a prior assignment gets
that variant's name; PAUSED/COMPLETED without prior assignment yields the
sentinel; otherwise (RUNNING, fresh participant) the admission runs and the
newly assigned variant's name is returned (admission errors propagate).
An assigned variant that is missing from the store makes the `.name`
attribute access crash, modelled as the variantNotFound error. -/
def get_variant_name (db : Store) (eid pid : Nat) (r : ℚ) : Store × Except Err String :=
  match findExperiment db.experiments eid with
  | none => (db, .error .experimentNotFound)
  | some e =>
    match experiment_in_progress db eid with
    | .error err => (db, .error err)
    | .ok inProg =>
      if inProg = false then (db, .ok "default")
      else if participant_in_experiment db eid pid then
        match get_variant_uuid_for_participant db eid pid with
        | none => (db, .error .variantNotFound)
        | some vid =>
          match get_variant db vid with
          | none => (db, .error .variantNotFound)
          | some v => (db, .ok v.name)
      else if e.experiment_status = .completed ∨ e.experiment_status = .paused then
        (db, .ok "default")
      else
        match add_participant_to_experiment db eid pid r with
        | (db2, .error err) => (db2, .error err)
        | (db2, .ok new_vid) =>
          match get_variant db2 new_vid with
          | none => (db2, .error .variantNotFound)
          | some v => (db2, .ok v.name)

/-- Experiment of the C5 counterexample store: RUNNING with zero variants. -/
def expC5 : Experiment :=
  { name := "running-empty", description := "d", experiment_uuid := 1,
    start_date := some 0, end_date := none, experiment_variants := [],
    experiment_status := .running }

/-- The C5 counterexample store. -/
def dbC5 : Store := { experiments := [expC5], variants := [] }

/-- C5 counterexample: experiment 1 exists and is RUNNING and participant 7
has no prior assignment, yet `get_variant_name` raises the admission error
`NoVariants` instead of returning a variant name as the claim's
"otherwise" branch requires. -/
theorem c5_running_no_variants_cx :
    findExperiment dbC5.experiments 1 = some expC5 ∧
    expC5.experiment_status = .running ∧
    participant_in_experiment dbC5 1 7 = false ∧
    get_variant_name dbC5 1 7 0 = (dbC5, .error .noVariants) := by
  refine ⟨by decide, by decide, by decide, by decide⟩

/-- C5 amended: `get_variant_name` raises NotFound on a missing experiment
identity; returns the sentinel "default" on a CREATED or STOPPED
experiment, and on a PAUSED/COMPLETED experiment when the participant has
no prior assignment; returns the previously assigned variant's name when
one exists (experiment RUNNING/PAUSED/COMPLETED); and on a RUNNING
experiment with no prior assignment it returns the newly assigned
variant's name when the admission succeeds (if the admission fails, e.g.
zero variants or zero total weight, the admission error propagates
instead of a name being returned). -/
theorem c5_get_variant_name_cases (db : Store) (eid pid : Nat) (r : ℚ) :
    (findExperiment db.experiments eid = none →
      get_variant_name db eid pid r = (db, .error .experimentNotFound)) ∧
    (∀ e, findExperiment db.experiments eid = some e →
      ((e.experiment_status = .created ∨ e.experiment_status = .stopped) →
        get_variant_name db eid pid r = (db, .ok "default")) ∧
      ((e.experiment_status = .paused ∨ e.experiment_status = .completed) →
        participant_in_experiment db eid pid = false →
        get_variant_name db eid pid r = (db, .ok "default")) ∧
      (∀ vid v, (e.experiment_status = .running ∨ e.experiment_status = .paused ∨
          e.experiment_status = .completed) →
        get_variant_uuid_for_participant db eid pid = some vid →
        findVariant db.variants vid = some v →
        get_variant_name db eid pid r = (db, .ok v.name)) ∧
      (∀ db2 vid v, e.experiment_status = .running →
        participant_in_experiment db eid pid = false →
        add_participant_to_experiment db eid pid r = (db2, .ok vid) →
        findVariant db2.variants vid = some v →
        get_variant_name db eid pid r = (db2, .ok v.name))) := by
  constructor
  · intro h
    simp [get_variant_name, h]
  · intro e he
    refine ⟨?_, ?_, ?_, ?_⟩
    · intro hst
      rcases hst with h | h <;>
        simp [get_variant_name, experiment_in_progress, he, in_progress_status, h]
    · intro hst hin
      rcases hst with h | h <;>
        simp [get_variant_name, experiment_in_progress, he, in_progress_status, h, hin]
    · intro vid v hst hvid hv
      have hin : participant_in_experiment db eid pid = true := by
        simp [participant_in_experiment, hvid]
      rcases hst with h | h | h <;>
        simp [get_variant_name, experiment_in_progress, he, in_progress_status, h,
          hin, hvid, get_variant, hv]
    · intro db2 vid v hst hin hadd hv
      simp [get_variant_name, experiment_in_progress, he, in_progress_status, hst,
        hin, hadd, get_variant, hv]

/-- Experiment of the C5 witness store: PAUSED, one variant. -/
def expC5w : Experiment :=
  { name := "paused", description := "d", experiment_uuid := 1,
    start_date := some 0, end_date := none, experiment_variants := [10],
    experiment_status := .paused }

/-- Variant of the C5 witness store: participant 7 assigned. -/
def varC5w : ExperimentVariant :=
  { name := "arm", description := "d", variant_uuid := 10,
    allocation := 1, participants := [7] }

/-- The C5 witness store. -/
def dbC5w : Store := { experiments := [expC5w], variants := [varC5w] }

/-- C5 witness: on the paused experiment, the previously assigned
participant 7 gets the variant's name, the fresh participant 8 gets the
sentinel, and a missing experiment identity raises NotFound. -/
theorem c5_get_variant_name_cases_witness :
    get_variant_name dbC5w 1 7 0 = (dbC5w, .ok "arm") ∧
    get_variant_name dbC5w 1 8 0 = (dbC5w, .ok "default") ∧
    get_variant_name dbC5w 2 7 0 = (dbC5w, .error .experimentNotFound) := by
  refine ⟨?_, ?_, ?_⟩
  · exact (((c5_get_variant_name_cases dbC5w 1 7 0).2 expC5w (by decide)).2.2.1) 10 varC5w
      (by decide) (by decide) (by decide)
  · exact (((c5_get_variant_name_cases dbC5w 1 8 0).2 expC5w (by decide)).2.1)
      (by decide) (by decide)
  · exact (c5_get_variant_name_cases dbC5w 2 7 0).1 (by decide)

/-- `ExperimentVariantService.update_allocation` (`src/services.py` lines
280-292): rejects negative allocations, then performs the repository
partial update. -/
def update_allocation (db : Store) (vid : Nat) (new_allocation : ℚ) :
    Store × Except Err (Option ExperimentVariant) :=
  if new_allocation < 0 then (db, .error .negativeAllocation)
  else repo_update_variant db vid (fun v => { v with allocation := new_allocation })

/-- The index-aligned update loop of
`ExperimentInterface.update_variant_allocations`: one
`update_allocation` per (variant-uuid, weight) pair, in stored variant
order; an exception aborts the loop with the store as written so far. -/
def applyAllocations : Store → List (Nat × ℚ) → Store × Except Err Bool
  | db, [] => (db, .ok true)
  | db, (vid, a) :: rest =>
    match update_allocation db vid a with
    | (db2, .error err) => (db2, .error err)
    | (db2, .ok _) => applyAllocations db2 rest

/-- `ExperimentInterface.update_variant_allocations` (`src/interface.py`
lines 101-122). -/
def update_variant_allocations (db : Store) (eid : Nat) (allocations : List ℚ) :
    Store × Except Err Bool :=
  match findExperiment db.experiments eid with
  | none => (db, .ok false)
  | some e =>
    if allocations.length ≠ e.experiment_variants.length then (db, .ok false)
    else
      match experiment_in_progress db eid with
      | .error err => (db, .error err)
      | .ok inProg =>
        if inProg = false then (db, .ok false)
        else applyAllocations db (e.experiment_variants.zip allocations)

/-- The index-aligned update loop of
`ExperimentInterface.update_variant_descriptions`: one repository
description update per pair. -/
def applyDescriptions : Store → List (Nat × String) → Store × Except Err Bool
  | db, [] => (db, .ok true)
  | db, (vid, d) :: rest =>
    match repo_update_variant db vid (fun v => { v with description := d }) with
    | (db2, .error err) => (db2, .error err)
    | (db2, .ok _) => applyDescriptions db2 rest

/-- `ExperimentInterface.update_variant_descriptions` (`src/interface.py`
lines 124-145). -/
def update_variant_descriptions (db : Store) (eid : Nat) (descriptions : List String) :
    Store × Except Err Bool :=
  match findExperiment db.experiments eid with
  | none => (db, .ok false)
  | some e =>
    if descriptions.length ≠ e.experiment_variants.length then (db, .ok false)
    else
      match experiment_in_progress db eid with
      | .error err => (db, .error err)
      | .ok inProg =>
        if inProg = false then (db, .ok false)
        else applyDescriptions db (e.experiment_variants.zip descriptions)

lemma applyAllocations_append (pre ys : List (Nat × ℚ)) (db0 db1 : Store)
    (h : applyAllocations db0 pre = (db1, .ok true)) :
    applyAllocations db0 (pre ++ ys) = applyAllocations db1 ys := by
  induction pre generalizing db0 with
  | nil =>
    simp only [applyAllocations] at h
    rw [Prod.mk.injEq] at h
    rw [List.nil_append, h.1]
  | cons p rest ih =>
    obtain ⟨vid, a⟩ := p
    simp only [applyAllocations, List.cons_append] at h ⊢
    split at h
    · next db2 err heq =>
      exact absurd h (by simp)
    · next db2 b heq =>
      exact ih db2 h

lemma applyDescriptions_append (pre ys : List (Nat × String)) (db0 db1 : Store)
    (h : applyDescriptions db0 pre = (db1, .ok true)) :
    applyDescriptions db0 (pre ++ ys) = applyDescriptions db1 ys := by
  induction pre generalizing db0 with
  | nil =>
    simp only [applyDescriptions] at h
    rw [Prod.mk.injEq] at h
    rw [List.nil_append, h.1]
  | cons p rest ih =>
    obtain ⟨vid, d⟩ := p
    simp only [applyDescriptions, List.cons_append] at h ⊢
    split at h
    · next db2 err heq =>
      exact absurd h (by simp)
    · next db2 b heq =>
      exact ih db2 h

/-- C7: the batch setters return false with no update attempted on a
length mismatch or a not-in-progress experiment; otherwise they run the
index-aligned update loop over the stored variant order, and a failure
partway through the list (a negative weight for allocations, a missing
variant for descriptions) aborts with the earlier updates still committed
and no rollback. -/
theorem c7_batch_setters (db : Store) (eid : Nat) (allocations : List ℚ)
    (descriptions : List String) :
    (∀ e, findExperiment db.experiments eid = some e →
      (allocations.length ≠ e.experiment_variants.length →
        update_variant_allocations db eid allocations = (db, .ok false)) ∧
      (allocations.length = e.experiment_variants.length →
        in_progress_status e.experiment_status = false →
        update_variant_allocations db eid allocations = (db, .ok false)) ∧
      (allocations.length = e.experiment_variants.length →
        in_progress_status e.experiment_status = true →
        update_variant_allocations db eid allocations =
          applyAllocations db (e.experiment_variants.zip allocations)) ∧
      (descriptions.length ≠ e.experiment_variants.length →
        update_variant_descriptions db eid descriptions = (db, .ok false)) ∧
      (descriptions.length = e.experiment_variants.length →
        in_progress_status e.experiment_status = false →
        update_variant_descriptions db eid descriptions = (db, .ok false)) ∧
      (descriptions.length = e.experiment_variants.length →
        in_progress_status e.experiment_status = true →
        update_variant_descriptions db eid descriptions =
          applyDescriptions db (e.experiment_variants.zip descriptions))) ∧
    (∀ db0 db1 pre vid a rest, applyAllocations db0 pre = (db1, .ok true) → a < 0 →
      applyAllocations db0 (pre ++ (vid, a) :: rest) =
        (db1, .error .negativeAllocation)) ∧
    (∀ db0 db1 pre vid d rest, applyDescriptions db0 pre = (db1, .ok true) →
      findVariant db1.variants vid = none →
      applyDescriptions db0 (pre ++ (vid, d) :: rest) =
        (db1, .error .variantNotFound)) := by
  refine ⟨?_, ?_, ?_⟩
  · intro e he
    refine ⟨?_, ?_, ?_, ?_, ?_, ?_⟩
    · intro hlen
      simp [update_variant_allocations, he, hlen]
    · intro hlen hprog
      simp [update_variant_allocations, experiment_in_progress, he, hlen, hprog]
    · intro hlen hprog
      simp [update_variant_allocations, experiment_in_progress, he, hlen, hprog]
    · intro hlen
      simp [update_variant_descriptions, he, hlen]
    · intro hlen hprog
      simp [update_variant_descriptions, experiment_in_progress, he, hlen, hprog]
    · intro hlen hprog
      simp [update_variant_descriptions, experiment_in_progress, he, hlen, hprog]
  · intro db0 db1 pre vid a rest hpre ha
    rw [applyAllocations_append pre ((vid, a) :: rest) db0 db1 hpre]
    simp [applyAllocations, update_allocation, ha]
  · intro db0 db1 pre vid d rest hpre hmiss
    rw [applyDescriptions_append pre ((vid, d) :: rest) db0 db1 hpre]
    simp [applyDescriptions, repo_update_variant, hmiss]

/-- Experiment of the C7 witness store: running, two variants. -/
def expC7w : Experiment :=
  { name := "running", description := "d", experiment_uuid := 1,
    start_date := some 0, end_date := none, experiment_variants := [10, 11],
    experiment_status := .running }

/-- First variant of the C7 witness store. -/
def varC7w10 : ExperimentVariant :=
  { name := "a", description := "d", variant_uuid := 10,
    allocation := 1, participants := [] }

/-- Second variant of the C7 witness store. -/
def varC7w11 : ExperimentVariant :=
  { name := "b", description := "d", variant_uuid := 11,
    allocation := 1, participants := [] }

/-- The C7 witness store. -/
def dbC7w : Store := { experiments := [expC7w], variants := [varC7w10, varC7w11] }

/-- The C7 witness store after the first (committed) allocation update. -/
def dbC7w2 : Store :=
  { experiments := [expC7w],
    variants := [{ varC7w10 with allocation := 2 }, varC7w11] }

/-- C7 witness: the batch `[2, -1]` commits the weight-2 update on the
first variant and then aborts with the domain violation, leaving the first
update in place (no rollback); a length-mismatched batch returns false
with the store untouched, for both setters. -/
theorem c7_batch_setters_witness :
    update_variant_allocations dbC7w 1 [2, -1] = (dbC7w2, .error .negativeAllocation) ∧
    update_variant_allocations dbC7w 1 [2] = (dbC7w, .ok false) ∧
    update_variant_descriptions dbC7w 1 ["x"] = (dbC7w, .ok false) := by
  obtain ⟨hmain, hnoroll, -⟩ := c7_batch_setters dbC7w 1 [2, -1] ["x"]
  obtain ⟨-, -, h3, h4, -, -⟩ := hmain expC7w (by decide)
  refine ⟨?_, ?_, ?_⟩
  · have heq := h3 (by decide) (by decide)
    rw [heq]
    have hr := hnoroll dbC7w dbC7w2 [(10, 2)] 11 (-1) [] (by decide) (by decide)
    simpa using hr
  · exact ((c7_batch_setters dbC7w 1 [2] ["x"]).1 expC7w (by decide)).1 (by decide)
  · exact h4 (by decide)

/-- The result object of pymongo's `insert_one` as consumed by
`GenericCrud.create`: the acknowledged flag and the reported inserted id.
It is an environment input: the store, not the code, decides it. -/
structure InsertOneResult where
  acknowledged : Bool
  insertedId : Option Nat
deriving DecidableEq, Repr

/-- `find_one` on a generic collection of documents keyed by their UUID
field (`GenericCrud.read`). -/
def find_one_doc {α : Type} : List (Nat × α) → Nat → Option (Nat × α)
  | [], _ => none
  | d :: rest, u => if d.1 = u then some d else find_one_doc rest u

/-- `GenericCrud.create` (`src/database/crud.py` lines 33-58), generic
over the entity payload: resolve the model UUID (caller-supplied or
generated), no-op returning `none` when a document with that UUID already
exists, otherwise insert and — depending on the store's reported insert
result — return the UUID or raise the acknowledgement failure. -/
def crud_create {α : Type} (coll : List (Nat × α)) (instance_uuid : Option Nat)
    (payload : α) (generated_uuid : Nat) (ins : InsertOneResult) :
    Except Err (List (Nat × α) × Option Nat) :=
  let model_uuid := match instance_uuid with
    | none => generated_uuid
    | some u => u
  match find_one_doc coll model_uuid with
  | some _ => .ok (coll, none)
  | none =>
    if ins.acknowledged = true ∧ ins.insertedId ≠ none then
      .ok (coll ++ [(model_uuid, payload)], some model_uuid)
    else .error .storageAckFailure

/-- C6: gateway create returns `none` (a no-op, not an error, no
overwrite) on a colliding identity; inserts and returns the identity on a
new identity with a good acknowledgement; and raises the
StorageAcknowledgementFailure when the store acknowledges without an
inserted document. -/
theorem c6_gateway_create {α : Type} (coll : List (Nat × α)) (iu : Option Nat) (p : α)
    (g : Nat) (ins : InsertOneResult) :
    (find_one_doc coll (iu.getD g) ≠ none →
      crud_create coll iu p g ins = .ok (coll, none)) ∧
    (find_one_doc coll (iu.getD g) = none → ins.acknowledged = true →
      ins.insertedId ≠ none →
      crud_create coll iu p g ins = .ok (coll ++ [(iu.getD g, p)], some (iu.getD g))) ∧
    (find_one_doc coll (iu.getD g) = none →
      ¬(ins.acknowledged = true ∧ ins.insertedId ≠ none) →
      crud_create coll iu p g ins = .error .storageAckFailure) := by
  refine ⟨?_, ?_, ?_⟩
  · intro h
    cases hf : find_one_doc coll (iu.getD g) with
    | none => exact absurd hf h
    | some doc =>
      cases iu <;> simp only [crud_create] <;>
        simp only [Option.getD] at hf <;> rw [hf]
  · intro hf hack hid
    cases iu <;> simp only [crud_create] <;>
      simp only [Option.getD] at hf ⊢ <;> rw [hf] <;>
      rw [if_pos ⟨hack, hid⟩]
  · intro hf hbad
    cases iu <;> simp only [crud_create] <;>
      simp only [Option.getD] at hf ⊢ <;> rw [hf] <;>
      rw [if_neg hbad]

/-- C6 witness: on a collection holding identity 1, creating with identity
1 is a no-op returning `none`; creating a fresh entity with generated
identity 2 inserts and returns 2; and a bad acknowledgement on a fresh
identity 3 raises the storage failure. -/
theorem c6_gateway_create_witness :
    crud_create [((1 : Nat), (100 : Nat))] (some 1) 55 9 ⟨true, some 0⟩ =
      .ok ([(1, 100)], none) ∧
    crud_create [((1 : Nat), (100 : Nat))] none 55 2 ⟨true, some 0⟩ =
      .ok ([(1, 100), (2, 55)], some 2) ∧
    crud_create [((1 : Nat), (100 : Nat))] (some 3) 55 9 ⟨true, none⟩ =
      .error .storageAckFailure := by
  refine ⟨?_, ?_, ?_⟩
  · exact (c6_gateway_create [(1, 100)] (some 1) 55 9 ⟨true, some 0⟩).1 (by decide)
  · exact (c6_gateway_create [(1, 100)] none 55 2 ⟨true, some 0⟩).2.1
      (by decide) (by decide) (by decide)
  · exact (c6_gateway_create [(1, 100)] (some 3) 55 9 ⟨true, none⟩).2.2
      (by decide) (by decide)

/-- `ExperimentVariant.number_of_participants` (`src/app.py`). -/
def number_of_participants (v : ExperimentVariant) : Nat :=
  v.participants.length

/-- `Experiment.get_variant_objs` (`src/app.py`): load every variant
document of the experiment; a missing document makes the load crash
(`none`). -/
def get_variant_objs (db : Store) (experiment_variants : List Nat) :
    Option (List ExperimentVariant) :=
  hydrate_variants db experiment_variants

/-- `Experiment.get_current_allocations` (`src/app.py` lines 181-196):
map each variant to its membership count, and when the total is positive
normalize each entry by the total; with a zero total the raw (all-zero)
counts mapping is returned, with no division. -/
def get_current_allocations (db : Store) (experiment_variants : List Nat) :
    Option (List (Nat × ℚ)) :=
  match get_variant_objs db experiment_variants with
  | none => none
  | some vs =>
    let allocations := vs.map (fun v => (v.variant_uuid, (number_of_participants v : ℚ)))
    let total_participants := (allocations.map (fun kv => kv.2)).sum
    if total_participants > 0 then
      some (allocations.map (fun kv => (kv.1, kv.2 / total_participants)))
    else some allocations

/-- `Experiment.get_expected_allocations` (`src/app.py` lines 198-205):
map each variant to its raw declared allocation weight — the source does
NOT divide by the total weight, although its docstring promises the
"expected percentage of participants". -/
def get_expected_allocations (db : Store) (experiment_variants : List Nat) :
    Option (List (Nat × ℚ)) :=
  match get_variant_objs db experiment_variants with
  | none => none
  | some vs => some (vs.map (fun v => (v.variant_uuid, v.allocation)))

/-- First variant of the C8 store: weight 1, five members. -/
def varC8a : ExperimentVariant :=
  { name := "a", description := "d", variant_uuid := 1,
    allocation := 1, participants := [21, 22, 23, 24, 25] }

/-- Second variant of the C8 store: weight 3, nine members. -/
def varC8b : ExperimentVariant :=
  { name := "b", description := "d", variant_uuid := 2,
    allocation := 3, participants := [31, 32, 33, 34, 35, 36, 37, 38, 39] }

/-- The C8 store with members. -/
def dbC8 : Store := { experiments := [], variants := [varC8a, varC8b] }

/-- The C8 store with empty memberships (weights 1 and 3 as well). -/
def dbC8z : Store :=
  { experiments := [],
    variants := [{ varC8a with participants := [] }, { varC8b with participants := [] }] }

/-- C8: the expected-allocation projection returns the RAW declared
weights — for weights 1 and 3 it yields {v1: 1, v2: 3}, which is not the
normalized {v1: 1/4, v2: 3/4} the claim (and the source's own docstring,
"expected percentage of participants") requires; the observed-allocation
half of the claim does hold: memberships [5, 9] yield {v1: 5/14, v2: 9/14}
and an all-empty membership yields {v1: 0, v2: 0} with no division. -/
theorem c8_expected_allocations_unnormalized :
    get_expected_allocations dbC8 [1, 2] = some [(1, 1), (2, 3)] ∧
    some [((1 : Nat), (1 : ℚ)), (2, 3)] ≠ some [(1, 1 / 4), (2, 3 / 4)] ∧
    get_current_allocations dbC8 [1, 2] = some [(1, 5 / 14), (2, 9 / 14)] ∧
    get_current_allocations dbC8z [1, 2] = some [(1, 0), (2, 0)] := by
  refine ⟨by decide, by norm_num, ?_, ?_⟩
  · norm_num [get_current_allocations, get_variant_objs, hydrate_variants, get_variant,
      findVariant, dbC8, varC8a, varC8b, number_of_participants]
  · norm_num [get_current_allocations, get_variant_objs, hydrate_variants, get_variant,
      findVariant, dbC8z, varC8a, varC8b, number_of_participants]

/-- Modelled from the spec: `ExperimentRepository.get_all` is called by
`ExperimentInterface.get_all_experiments` (`src/interface.py` line 92) but
is not defined anywhere in the repository sources; per the spec it is the
unfiltered listing of the experiments collection. -/
def ExperimentRepository_get_all (db : Store) : List Experiment :=
  db.experiments

/-- `ExperimentInterface.get_all_experiments` (`src/interface.py` lines
87-92): delegate to the repository listing. -/
def get_all_experiments (db : Store) : List Experiment :=
  ExperimentRepository_get_all db

/-- C9: `get_all_experiments` returns the unfiltered experiments
collection for every store state, the empty store included, and is a total
function (it cannot raise). -/
theorem c9_get_all_experiments_unfiltered (db : Store) :
    get_all_experiments db = db.experiments ∧
    get_all_experiments { experiments := [], variants := [] } = [] :=
  ⟨rfl, rfl⟩
